import Mathlib

/-!
Verification development for the saveit file-storage application.

The repository consists of server-side request handlers (Next.js server
actions) that call an external backend (Appwrite: identity, document
database, object storage).  We shallowly embed each handler as a pure
Lean function: every remote call becomes an explicit oracle input
(`Except Err _` for fallible calls), cookie and bucket state is passed
explicitly, and thrown JS exceptions become `Except.error`.

Sources embedded:
  - src/lib/actions/file.actions.ts   (uploadFile, createQueries, getFiles,
                                       getTotalSpaceUsed)
  - src/lib/actions/user.actions.ts   (createAccount, ensureAttributes,
                                       getCurrentUser, signOutUser)
-/

/-- Errors thrown by the external SDK or by the handlers; we only need to
distinguish them, so a message string suffices. -/
abbrev Err := String

/-- A user document in the users collection (fields written by
`createAccount`: fullName, email, avatar, accountId, plus `$id`). -/
structure UserDoc where
  id : String
  accountId : String
  email : String
  fullName : String
  avatar : String
deriving DecidableEq, Repr

/-- Shape of an Appwrite `listDocuments` response: `total` and `documents`.
The code reads both fields and they are not assumed consistent. -/
structure ListResp where
  total : Nat
  documents : List UserDoc
deriving DecidableEq, Repr

/- ===================== getTotalSpaceUsed (file.actions.ts 326-365) ===== -/

/-- The five file type classifications; `file.type as FileType` in the code.
The claims about `getTotalSpaceUsed` are restricted to files whose type is
one of these five known values. -/
inductive FileType where
  | image
  | document
  | video
  | audio
  | other
deriving DecidableEq, Repr

/-- The fields of a file document that `getTotalSpaceUsed` reads:
`file.size`, `file.type`, `file.$updatedAt`.  Update timestamps are modelled
as naturals; the code compares them via `new Date(a) > new Date(b)`. -/
structure SpaceFile where
  size : Nat
  ftype : FileType
  updatedAt : Nat
deriving DecidableEq, Repr

/-- One per-type bucket of the `totalSpace` accumulator: `size` starts at 0
and `latestDate` starts at `""` (modelled `none`). -/
structure SpaceBucket where
  size : Nat
  latestDate : Option Nat
deriving DecidableEq, Repr

/-- The `totalSpace` accumulator object of `getTotalSpaceUsed`. -/
structure TotalSpace where
  image : SpaceBucket
  document : SpaceBucket
  video : SpaceBucket
  audio : SpaceBucket
  other : SpaceBucket
  used : Nat
  all : Nat
deriving DecidableEq, Repr

/-- `totalSpace[fileType]` read access. -/
def TotalSpace.bucket (ts : TotalSpace) : FileType → SpaceBucket
  | .image => ts.image
  | .document => ts.document
  | .video => ts.video
  | .audio => ts.audio
  | .other => ts.other

/-- `totalSpace[fileType] = b` write access. -/
def TotalSpace.setBucket (ts : TotalSpace) : FileType → SpaceBucket → TotalSpace
  | .image, b => { ts with image := b }
  | .document, b => { ts with document := b }
  | .video, b => { ts with video := b }
  | .audio, b => { ts with audio := b }
  | .other, b => { ts with other := b }

/-- The initial `totalSpace` literal: empty buckets, `used: 0`,
`all: 2 * 1024 * 1024 * 1024`. -/
def initialTotalSpace : TotalSpace :=
  { image := { size := 0, latestDate := none }
    document := { size := 0, latestDate := none }
    video := { size := 0, latestDate := none }
    audio := { size := 0, latestDate := none }
    other := { size := 0, latestDate := none }
    used := 0
    all := 2 * 1024 * 1024 * 1024 }

/-- `totalSpace.used = u` write access. -/
def TotalSpace.setUsed (ts : TotalSpace) (u : Nat) : TotalSpace :=
  { ts with used := u }

/-- Effect of one file on its own type bucket inside the
`files.documents.forEach` callback: `totalSpace[fileType].size += file.size`,
and `latestDate` is bumped when unset (`""`) or strictly older than
`file.$updatedAt`. -/
def bumpBucket (b : SpaceBucket) (file : SpaceFile) : SpaceBucket :=
  let b := { b with size := b.size + file.size }
  match b.latestDate with
  | none => { b with latestDate := some file.updatedAt }
  | some old =>
      if old < file.updatedAt then { b with latestDate := some file.updatedAt } else b

/-- The whole body of the `files.documents.forEach` callback in
`getTotalSpaceUsed`: bucket update plus `totalSpace.used += file.size`. -/
def addFileToSpace (ts : TotalSpace) (file : SpaceFile) : TotalSpace :=
  (ts.setBucket file.ftype (bumpBucket (ts.bucket file.ftype) file)).setUsed
    (ts.used + file.size)

/-- The fold performed by `getTotalSpaceUsed` over the listed documents. -/
def totalSpaceOf (files : List SpaceFile) : TotalSpace :=
  files.foldl addFileToSpace initialTotalSpace

/-- `getTotalSpaceUsed` with its remote calls as oracles: session-client
creation, the current-user lookup, and the owner-filtered file query.  Any
failure (or a missing user) is rethrown by `handleError`. -/
def getTotalSpaceUsed (sessionRes : Except Err Unit) (currentUser : Option UserDoc)
    (queryRes : Except Err (List SpaceFile)) : Except Err TotalSpace :=
  match sessionRes with
  | .error e => .error e
  | .ok _ =>
    match currentUser with
    | none => .error "User is not authenticated."
    | some _ =>
      match queryRes with
      | .error e => .error e
      | .ok files => .ok (totalSpaceOf files)

/-- Sum of the sizes of a list of files. -/
def sumSizes (files : List SpaceFile) : Nat :=
  (files.map SpaceFile.size).sum

/- ===================== signOutUser (user.actions.ts 207-218) =========== -/

/-- The only non-exceptional way `signOutUser` ends: its `finally` block
calls `redirect("/sign-in")`, which in Next.js supersedes any pending
exception from the `try`/`catch`. -/
inductive SignOutOutcome where
  | redirectTo (path : String)
deriving DecidableEq, Repr

/-- The cookie jar is the list of cookie names currently set. -/
abbrev CookieJar := List String

/-- `signOutUser` with its remote calls as oracles.  `createSessionClient`
runs before the `try`, so its failure propagates directly.  Inside the
`try`, `account.deleteSession("current")` runs first; only if it succeeds
does `cookies().delete("appwrite-session")` run.  On failure, `handleError`
rethrows, and the `finally` redirect supersedes the exception.  Returns the
outcome together with the final cookie jar. -/
def signOutUser (sessionClientRes : Except Err Unit)
    (deleteSessionRes : Except Err Unit) (jar : CookieJar) :
    Except Err SignOutOutcome × CookieJar :=
  match sessionClientRes with
  | .error e => (.error e, jar)
  | .ok _ =>
    match deleteSessionRes with
    | .ok _ => (.ok (.redirectTo "/sign-in"), jar.filter (fun c => c ≠ "appwrite-session"))
    | .error _ => (.ok (.redirectTo "/sign-in"), jar)

/- ===================== getCurrentUser (user.actions.ts 187-205) ======== -/

/-- What `getCurrentUser` can produce: the matching user document,
`null` when no user document matches the account id, or `undefined`
(the fall-through after `catch`) when any underlying call fails. -/
inductive CurrentUserResult where
  | found (u : UserDoc)
  | nullResult
  | absent
deriving DecidableEq, Repr

/-- Oracles for `getCurrentUser`: session-client creation (throws when the
session cookie is missing), `account.get()` (yields the account id
`result.$id`), and the users-collection query filtered by that account id. -/
structure CurrentUserEnv where
  sessionClientRes : Except Err Unit
  accountGetRes : Except Err String
  listByAccountId : String → Except Err ListResp

/-- `getCurrentUser`: the whole body is wrapped in `try`/`catch` whose
`catch` only logs, so every failure falls through to `undefined`
(`absent`).  On success it returns `null` when `user.total <= 0` and
`user.documents[0]` otherwise; an inconsistent response with
`total > 0` but no documents makes `parseStringify(undefined)` throw,
which the same `catch` turns into `absent`. -/
def getCurrentUser (env : CurrentUserEnv) : CurrentUserResult :=
  match env.sessionClientRes with
  | .error _ => .absent
  | .ok _ =>
    match env.accountGetRes with
    | .error _ => .absent
    | .ok accountId =>
      match env.listByAccountId accountId with
      | .error _ => .absent
      | .ok user =>
        if user.total ≤ 0 then .nullResult
        else
          match user.documents.head? with
          | some d => .found d
          | none => .absent

/- ===================== getFiles (file.actions.ts 152-248) ============== -/

/-- Per-owner oracles for the resolution chain inside `getFiles`:
`databases.getDocument` by document id, then `listDocuments` filtered by
`accountId`, then `listDocuments` filtered by `email`. -/
structure OwnerLookup where
  getDoc : Except Err UserDoc
  byAccount : Except Err ListResp
  byEmail : Except Err ListResp

/-- The per-owner resolution chain of `getFiles`: try `getDocument` by id;
on failure query by `accountId` and, when `total > 0`, take
`documents[0]` and return; otherwise query by `email` and, when
`total > 0`, take `documents[0]`; a failure of either fallback query is
swallowed (`catch (err2) /* ignore */`), leaving the owner unresolved. -/
def resolveOwner (look : OwnerLookup) : Option UserDoc :=
  match look.getDoc with
  | .ok d => some d
  | .error _ =>
    match look.byAccount with
    | .error _ => none
    | .ok byAccount =>
      if byAccount.total > 0 then byAccount.documents.head?
      else
        match look.byEmail with
        | .error _ => none
        | .ok byEmail =>
          if byEmail.total > 0 then byEmail.documents.head? else none

/-- Association-list lookup, modelling `ownerMap[ownerId]`. -/
def assocFind {α : Type} : List (String × α) → String → Option α
  | [], _ => none
  | (k, v) :: rest, key => if k = key then some v else assocFind rest key

/-- The `Promise.all` phase of `getFiles`: one independent resolution per
distinct owner id, collected into `ownerMap`. -/
def buildOwnerMap (lookups : String → OwnerLookup) (ownerIds : List String) :
    List (String × Option UserDoc) :=
  ownerIds.map (fun ownerId => (ownerId, resolveOwner (lookups ownerId)))

/-- The `owner` field of a file document as the backend may return it:
null/undefined, a plain string id, some other object (with or without an
`$id`), or a full user document. -/
inductive OwnerVal where
  | nullOwner
  | strId (s : String)
  | objWithId (oid : Option String)
  | userDoc (u : UserDoc)
deriving DecidableEq, Repr

/-- `ownerIdValue` as computed in `getFiles`: the string itself when
`owner` is a string, `owner.$id ?? null` when it is a non-null object,
and null otherwise. -/
def ownerIdValue : OwnerVal → Option String
  | .nullOwner => none
  | .strId s => some s
  | .objWithId oid => oid
  | .userDoc u => some u.id

/-- A file document as `getFiles` returns it: the fields created by
`uploadFile` plus the `owner` reference. -/
structure FileDoc where
  name : String
  url : String
  ftype : String
  extension : String
  size : Nat
  updatedAt : String
  users : List String
  owner : OwnerVal
deriving DecidableEq, Repr

/-- The final mapping step of `getFiles`: spread each file document and
replace `owner` by `ownerMap[ownerIdValue] ?? owner` — the resolved user
document when resolution succeeded, the original value otherwise. -/
def attachOwners (ownerMap : String → Option UserDoc) (files : List FileDoc) :
    List FileDoc :=
  files.map (fun f =>
    let resolvedOwner :=
      match ownerIdValue f.owner with
      | some ownerId => ownerMap ownerId
      | none => none
    { f with owner := match resolvedOwner with
                      | some u => .userDoc u
                      | none => f.owner })

/- ===================== createQueries (file.actions.ts 121-149) ========= -/

/-- The query constructors of the Appwrite `Query` builder that
`createQueries` uses: equality, array containment, substring containment,
logical OR, limit, and the two orderings. -/
inductive DBQuery where
  | equalQ (attr : String) (vals : List String)
  | containsArr (attr : String) (vals : List String)
  | containsStr (attr : String) (val : String)
  | orQ (qs : List DBQuery)
  | limitQ (n : Nat)
  | orderAsc (attr : String)
  | orderDesc (attr : String)

/-- The ordering clause built from the sort string:
`const [sortBy, orderBy] = sort.split("-")`, then `orderAsc` when
`orderBy === "asc"` and `orderDesc` otherwise (also when the string has no
dash, which leaves `orderBy` undefined). -/
def sortClause (sort : String) : DBQuery :=
  let parts := sort.splitOn "-"
  let sortBy := parts.headD ""
  let orderBy := parts[1]?
  if orderBy = some "asc" then .orderAsc sortBy else .orderDesc sortBy

/-- `createQueries`: the OR clause of owner-equality and (when the email is
non-empty, i.e. truthy) collaborator containment, then the optional type
filter, name-search filter, limit (only when the given limit is truthy,
so not for `0`) and ordering (only when the sort string is truthy). -/
def createQueries (currentUser : UserDoc) (types : List String)
    (searchText : String) (sort : String) (limit : Option Nat) : List DBQuery :=
  let orClauses := [DBQuery.equalQ "owner" [currentUser.id]]
    ++ (if currentUser.email ≠ "" then [DBQuery.containsArr "users" [currentUser.email]]
        else [])
  let queries := [DBQuery.orQ orClauses]
  let queries := queries ++ (if types ≠ [] then [DBQuery.equalQ "type" types] else [])
  let queries := queries
    ++ (if searchText ≠ "" then [DBQuery.containsStr "name" searchText] else [])
  let queries := queries
    ++ (match limit with
        | some n => if n ≠ 0 then [DBQuery.limitQ n] else []
        | none => [])
  let queries := queries ++ (if sort ≠ "" then [sortClause sort] else [])
  queries

/-- Recognises a limit clause. -/
def isLimitQ : DBQuery → Bool
  | .limitQ _ => true
  | _ => false

/-- Recognises an ordering clause. -/
def isOrderQ : DBQuery → Bool
  | .orderAsc _ => true
  | .orderDesc _ => true
  | _ => false

/-- Recognises the type-equality filter. -/
def isTypeFilter : DBQuery → Bool
  | .equalQ attr _ => attr = "type"
  | _ => false

/-- Recognises the name-contains search filter. -/
def isNameSearch : DBQuery → Bool
  | .containsStr attr _ => attr = "name"
  | _ => false

/-- C6 exactly as the claim states it (to be compared with the code):
the query list starts with the OR clause (owner equality together with,
iff the email is non-empty, users containment), contains a type filter iff
the type list is non-empty, a name filter iff the search text is
non-empty, a limit clause iff a limit is given, and exactly one ordering
clause derived from the sort string. -/
def claimedQueryShape (currentUser : UserDoc) (types : List String)
    (searchText : String) (sort : String) (limit : Option Nat) : Prop :=
  let qs := createQueries currentUser types searchText sort limit
  qs.head? = some (DBQuery.orQ ([DBQuery.equalQ "owner" [currentUser.id]]
      ++ (if currentUser.email ≠ ""
          then [DBQuery.containsArr "users" [currentUser.email]] else [])))
  ∧ qs.countP isTypeFilter = (if types ≠ [] then 1 else 0)
  ∧ qs.countP isNameSearch = (if searchText ≠ "" then 1 else 0)
  ∧ qs.countP isLimitQ = (if limit.isSome then 1 else 0)
  ∧ qs.countP isOrderQ = 1
  ∧ (sort ≠ "" → qs.getLast? = some (sortClause sort))

/- ===================== uploadFile (file.actions.ts 25-118) ============= -/

/-- One attribute as returned by `databases.listAttributes`; the code reads
`a.key ?? a.$id`, so both fields may be missing (older SDK shapes vary). -/
structure Attr where
  key : Option String
  id : Option String
deriving DecidableEq, Repr

/-- `a.key ?? a.$id`: the key when present (even `""`), else the `$id`. -/
def attrKeyOf (a : Attr) : Option String :=
  match a.key with
  | some k => some k
  | none => a.id

/-- The set of existing attribute keys: `attrsArray.map(a => a.key ?? a.$id)
.filter(Boolean)` — missing and empty-string (falsy) keys are dropped. -/
def existingKeys (attrsArray : List Attr) : List String :=
  (attrsArray.filterMap attrKeyOf).filter (fun s => s ≠ "")

/-- `pickKey(...candidates)`: the first candidate present in the set of
existing keys, else null. -/
def pickKey (attrsArray : List Attr) (candidates : List String) : Option String :=
  candidates.find? (fun k => (existingKeys attrsArray).contains k)

/-- The candidate spellings tried for the account-id field. -/
def accountKeyCandidates : List String :=
  ["accountID", "accountId", "account_id"]

/-- The candidate spellings tried for the bucket-file reference field. -/
def bucketFileKeyCandidates : List String :=
  ["bucketFileId", "bucket_file_id", "bucketFile", "bucket_file", "bucketField"]

/-- A value stored in the `fileDocument` payload. -/
inductive FieldValue where
  | vStr (s : String)
  | vNat (n : Nat)
  | vList (l : List String)
deriving DecidableEq, Repr

/-- The bucket object returned by `storage.createFile`: `$id`, `name` and
`sizeOriginal`. -/
structure BucketFile where
  id : String
  name : String
  sizeOriginal : Nat
deriving DecidableEq, Repr

/-- One conditional assignment `if (pickKey(k)) fileDocument[k] = v`. -/
def entryIf (attrsArray : List Attr) (k : String) (v : FieldValue) :
    List (String × FieldValue) :=
  if (pickKey attrsArray [k]).isSome then [(k, v)] else []

/-- The `fileDocument` payload assembled by `uploadFile`, in assignment
order: name, url, type, extension, size, owner, then the picked account-id
spelling, the picked bucket-file-reference spelling, and users.  The values
derived in utils (`constructFileUrl`, `getFileType`) are passed in as the
already-computed `url`, `ftype` and `extension`. -/
def buildFileDocument (attrsArray : List Attr) (bucketFile : BucketFile)
    (url ftype extension ownerId accountId : String) :
    List (String × FieldValue) :=
  entryIf attrsArray "name" (.vStr bucketFile.name)
  ++ entryIf attrsArray "url" (.vStr url)
  ++ entryIf attrsArray "type" (.vStr ftype)
  ++ entryIf attrsArray "extension" (.vStr extension)
  ++ entryIf attrsArray "size" (.vNat bucketFile.sizeOriginal)
  ++ entryIf attrsArray "owner" (.vStr ownerId)
  ++ (match pickKey attrsArray accountKeyCandidates with
      | some k => [(k, .vStr accountId)]
      | none => [])
  ++ (match pickKey attrsArray bucketFileKeyCandidates with
      | some k => [(k, .vStr bucketFile.id)]
      | none => [])
  ++ entryIf attrsArray "users" (.vList [])

/-- Oracles for the remote calls of `uploadFile`, in call order:
`storage.createFile`, `databases.listAttributes`, `databases.createDocument`
and (only reached from the `.catch` handler) `storage.deleteFile`. -/
structure UploadEnv where
  createFileRes : Except Err BucketFile
  listAttributesRes : Except Err (List Attr)
  createDocumentRes : Except Err Unit
  deleteFileRes : Except Err Unit

/-- `uploadFile`: create the bucket object, list the attributes, build the
payload and create the document; when document creation fails, the
`.catch` handler first deletes the just-created bucket object, then
`handleError` rethrows the original error (a failing delete would itself
become the thrown error); the outer `catch` rethrows.  Returns the result
(the created document payload, or the thrown error) and the final bucket
contents. -/
def uploadFile (env : UploadEnv) (bucket : List String)
    (url ftype extension ownerId accountId : String) :
    Except Err (List (String × FieldValue)) × List String :=
  match env.createFileRes with
  | .error e => (.error e, bucket)
  | .ok bucketFile =>
    let bucket := bucket ++ [bucketFile.id]
    match env.listAttributesRes with
    | .error e => (.error e, bucket)
    | .ok attrsArray =>
      let fileDocument :=
        buildFileDocument attrsArray bucketFile url ftype extension ownerId accountId
      match env.createDocumentRes with
      | .ok _ => (.ok fileDocument, bucket)
      | .error e =>
        match env.deleteFileRes with
        | .ok _ => (.error e, bucket.filter (fun x => x ≠ bucketFile.id))
        | .error e2 => (.error e2, bucket)

/- ===================== createAccount (user.actions.ts 111-160) ========= -/

/-- `ensureStringAttribute`: list the collection's attributes and detect
whether `key` already exists (`a.key === key || a.$id === key`); if so
return false (nothing created), otherwise create the string attribute and
return true.  The schema is the attribute list of the users collection. -/
def ensureStringAttribute (schema : List Attr) (key : String) : Bool × List Attr :=
  if schema.any (fun a => decide (a.key = some key ∨ a.id = some key)) then
    (false, schema)
  else
    (true, schema ++ [{ key := some key, id := some key }])

/-- `ensureAttributes`: the `for (const key of keys)` loop, collecting the
keys actually created and threading the evolving schema. -/
def ensureAttributes : List Attr → List String → List String × List Attr
  | schema, [] => ([], schema)
  | schema, key :: rest =>
      let r1 := ensureStringAttribute schema key
      let r2 := ensureAttributes r1.2 rest
      ((if r1.1 then [key] else []) ++ r2.1, r2.2)

/-- Oracles for `createAccount`: the lookup by email (not guarded by any
`try` inside `createAccount`, so its failure propagates), `sendEmailOTP`
(which rethrows its own failures), and the user-document creation. -/
structure CreateAccountEnv where
  getUserByEmailRes : Except Err (Option UserDoc)
  otpRes : Except Err String
  createDocumentRes : Except Err Unit

/-- The document payload `createAccount` writes on first sign-up. -/
structure UserDocPayload where
  fullName : String
  email : String
  avatar : String
  accountId : String
deriving DecidableEq, Repr

/-- What a run of `createAccount` produces: the returned/thrown result,
the schema attributes created, the user document created (if any) and the
final schema. -/
structure CreateAccountOut where
  result : Except Err String
  attrsCreated : List String
  docCreated : Option UserDocPayload
  schemaAfter : List Attr

/-- `createAccount`: look the user up by email, send the OTP (throwing
`"Failed to send an OTP"` on a falsy account id), and only when no user
document exists yet: ensure the four attributes
`fullName`, `email`, `avatar`, `accountId`, then create the document with
those fields (`avatar` is the placeholder URL from constants, passed in).
Returns the pending account id. -/
def createAccount (fullName email avatarPlaceholderUrl : String)
    (schema : List Attr) (env : CreateAccountEnv) : CreateAccountOut :=
  match env.getUserByEmailRes with
  | .error e => { result := .error e, attrsCreated := [], docCreated := none
                  schemaAfter := schema }
  | .ok existingUser =>
    match env.otpRes with
    | .error e => { result := .error e, attrsCreated := [], docCreated := none
                    schemaAfter := schema }
    | .ok accountId =>
      if accountId = "" then
        { result := .error "Failed to send an OTP", attrsCreated := []
          docCreated := none, schemaAfter := schema }
      else
        match existingUser with
        | some _ => { result := .ok accountId, attrsCreated := []
                      docCreated := none, schemaAfter := schema }
        | none =>
          let r := ensureAttributes schema ["fullName", "email", "avatar", "accountId"]
          match env.createDocumentRes with
          | .error e => { result := .error e, attrsCreated := r.1
                          docCreated := none, schemaAfter := r.2 }
          | .ok _ =>
              { result := .ok accountId
                attrsCreated := r.1
                docCreated := some { fullName := fullName, email := email
                                     avatar := avatarPlaceholderUrl
                                     accountId := accountId }
                schemaAfter := r.2 }

/- ===================== sample data for concrete instantiations ========= -/

/-- A sample user document used to instantiate universally quantified
theorems at concrete inputs. -/
def sampleUser : UserDoc :=
  { id := "u1", accountId := "acc1", email := "ann@example.com"
    fullName := "Ann", avatar := "https://example.com/a.png" }

/-- A concrete `getCurrentUser` environment in which every call succeeds
and the account-id query returns `sampleUser`. -/
def sampleCurrentUserEnv : CurrentUserEnv :=
  { sessionClientRes := .ok ()
    accountGetRes := .ok "acc1"
    listByAccountId := fun _ => .ok { total := 1, documents := [sampleUser] } }

/-- A second sample user document, for owner-resolution scenarios. -/
def sampleUser2 : UserDoc :=
  { id := "u2", accountId := "acc2", email := "bob@example.com"
    fullName := "Bob", avatar := "https://example.com/b.png" }

/-- A concrete attribute list in which all the usual keys exist, the
account-id field is spelled `accountId` and the bucket-file reference is
only reachable through its `$id` (`bucket_file_id`). -/
def sampleAttrs : List Attr :=
  [{ key := some "name", id := some "name" },
   { key := some "url", id := none },
   { key := some "type", id := none },
   { key := some "extension", id := none },
   { key := some "size", id := none },
   { key := some "owner", id := none },
   { key := some "accountId", id := some "accountId" },
   { key := none, id := some "bucket_file_id" },
   { key := some "users", id := none }]

/-- A concrete bucket object as returned by `storage.createFile`. -/
def sampleBucketFile : BucketFile :=
  { id := "bf1", name := "report.pdf", sizeOriginal := 1234 }

/-- A concrete upload environment where the bytes are stored and the
attributes listed successfully, document creation fails, and the rollback
delete succeeds. -/
def sampleUploadEnv : UploadEnv :=
  { createFileRes := .ok sampleBucketFile
    listAttributesRes := .ok sampleAttrs
    createDocumentRes := .error "Failed to create file document"
    deleteFileRes := .ok () }

/-- A concrete `createAccount` environment for an email that already has a
user document. -/
def sampleCreateAccountEnvExisting : CreateAccountEnv :=
  { getUserByEmailRes := .ok (some sampleUser)
    otpRes := .ok "acc9"
    createDocumentRes := .ok () }

/-- A concrete `createAccount` environment for a first sign-up. -/
def sampleCreateAccountEnvNew : CreateAccountEnv :=
  { getUserByEmailRes := .ok none
    otpRes := .ok "acc9"
    createDocumentRes := .ok () }

/-- Concrete per-owner lookups: owner "u1" resolves directly, owner "acc2"
fails the direct lookup but succeeds through the accountId fallback, and
any other owner fails everywhere. -/
def sampleLookups : String → OwnerLookup := fun ownerId =>
  if ownerId = "u1" then
    { getDoc := .ok sampleUser
      byAccount := .error "not found"
      byEmail := .error "not found" }
  else if ownerId = "acc2" then
    { getDoc := .error "no document with id acc2"
      byAccount := .ok { total := 1, documents := [sampleUser2] }
      byEmail := .error "not found" }
  else
    { getDoc := .error "no document"
      byAccount := .error "query failed"
      byEmail := .error "query failed" }

/- ===================== theorems ===================== -/

theorem bucket_setBucket_same (ts : TotalSpace) (t : FileType) (b : SpaceBucket) :
    (ts.setBucket t b).bucket t = b := by
  cases t <;> rfl

theorem bucket_setBucket_other (ts : TotalSpace) (t u : FileType) (b : SpaceBucket)
    (h : t ≠ u) : (ts.setBucket t b).bucket u = ts.bucket u := by
  cases t <;> cases u <;> first | exact absurd rfl h | rfl

theorem used_setBucket (ts : TotalSpace) (t : FileType) (b : SpaceBucket) :
    (ts.setBucket t b).used = ts.used := by
  cases t <;> rfl

theorem bucket_setUsed (ts : TotalSpace) (u : Nat) (t : FileType) :
    (ts.setUsed u).bucket t = ts.bucket t := by
  cases t <;> rfl

theorem bumpBucket_size (b : SpaceBucket) (f : SpaceFile) :
    (bumpBucket b f).size = b.size + f.size := by
  unfold bumpBucket
  cases b.latestDate with
  | none => rfl
  | some old => by_cases h : old < f.updatedAt <;> simp [h]

theorem bumpBucket_latestDate (b : SpaceBucket) (f : SpaceFile) :
    (bumpBucket b f).latestDate
      = some (match b.latestDate with
              | none => f.updatedAt
              | some old => max old f.updatedAt) := by
  unfold bumpBucket
  cases b.latestDate with
  | none => rfl
  | some old =>
      by_cases h : old < f.updatedAt
      · simp [h, max_eq_right (Nat.le_of_lt h)]
      · simp [h, max_eq_left (Nat.le_of_not_lt h)]

theorem addFileToSpace_used (ts : TotalSpace) (f : SpaceFile) :
    (addFileToSpace ts f).used = ts.used + f.size := rfl

theorem addFileToSpace_bucket_same (ts : TotalSpace) (f : SpaceFile) :
    (addFileToSpace ts f).bucket f.ftype = bumpBucket (ts.bucket f.ftype) f := by
  unfold addFileToSpace
  rw [bucket_setUsed, bucket_setBucket_same]

theorem addFileToSpace_bucket_eq (ts : TotalSpace) (f : SpaceFile) (t : FileType)
    (h : f.ftype = t) :
    (addFileToSpace ts f).bucket t = bumpBucket (ts.bucket t) f := by
  subst h; exact addFileToSpace_bucket_same ts f

theorem addFileToSpace_bucket_size_same (ts : TotalSpace) (f : SpaceFile) :
    ((addFileToSpace ts f).bucket f.ftype).size = (ts.bucket f.ftype).size + f.size := by
  unfold addFileToSpace
  rw [bucket_setUsed, bucket_setBucket_same, bumpBucket_size]

theorem addFileToSpace_bucket_other (ts : TotalSpace) (f : SpaceFile) (t : FileType)
    (h : f.ftype ≠ t) : (addFileToSpace ts f).bucket t = ts.bucket t := by
  unfold addFileToSpace
  rw [bucket_setUsed, bucket_setBucket_other _ _ _ _ h]

theorem foldl_addFileToSpace_used (files : List SpaceFile) (init : TotalSpace) :
    (files.foldl addFileToSpace init).used = init.used + sumSizes files := by
  induction files generalizing init with
  | nil => simp [sumSizes]
  | cons f fs ih =>
      simp only [List.foldl_cons, ih, addFileToSpace_used, sumSizes, List.map_cons,
        List.sum_cons]
      omega

theorem foldl_addFileToSpace_bucket_size (files : List SpaceFile) (init : TotalSpace)
    (t : FileType) :
    ((files.foldl addFileToSpace init).bucket t).size
      = (init.bucket t).size + sumSizes (files.filter (fun f => f.ftype = t)) := by
  induction files generalizing init with
  | nil => simp [sumSizes]
  | cons f fs ih =>
      by_cases h : f.ftype = t
      · subst h
        simp only [List.foldl_cons, ih, addFileToSpace_bucket_size_same]
        simp [sumSizes]
        omega
      · simp only [List.foldl_cons, ih, addFileToSpace_bucket_other _ _ _ h]
        simp [sumSizes, h]

theorem sumSizes_filter_partition (files : List SpaceFile) :
    sumSizes (files.filter (fun f => f.ftype = FileType.image))
      + sumSizes (files.filter (fun f => f.ftype = FileType.document))
      + sumSizes (files.filter (fun f => f.ftype = FileType.video))
      + sumSizes (files.filter (fun f => f.ftype = FileType.audio))
      + sumSizes (files.filter (fun f => f.ftype = FileType.other))
      = sumSizes files := by
  induction files with
  | nil => simp [sumSizes]
  | cons f fs ih =>
      cases h : f.ftype <;> simp [sumSizes, List.filter_cons, h] at ih ⊢ <;> omega

/-- C4: over any list of file documents whose types are among the five known
types, `getTotalSpaceUsed` adds each file's size to exactly one per-type
bucket — the bucket of its own type, which ends up holding exactly the sum
of the sizes of the files of that type — and the returned `used` field
equals the sum of the five per-type bucket sizes. -/
theorem getTotalSpaceUsed_partitions (files : List SpaceFile) :
    (∀ t : FileType, ((totalSpaceOf files).bucket t).size
        = sumSizes (files.filter (fun f => f.ftype = t)))
    ∧ (totalSpaceOf files).used
        = (totalSpaceOf files).image.size + (totalSpaceOf files).document.size
          + (totalSpaceOf files).video.size + (totalSpaceOf files).audio.size
          + (totalSpaceOf files).other.size := by
  have hb : ∀ t : FileType, ((totalSpaceOf files).bucket t).size
      = sumSizes (files.filter (fun f => f.ftype = t)) := by
    intro t
    have := foldl_addFileToSpace_bucket_size files initialTotalSpace t
    cases t <;> simpa [totalSpaceOf, initialTotalSpace, TotalSpace.bucket] using this
  refine ⟨hb, ?_⟩
  have hu : (totalSpaceOf files).used = sumSizes files := by
    simpa [totalSpaceOf, initialTotalSpace] using
      foldl_addFileToSpace_used files initialTotalSpace
  have h1 := hb FileType.image
  have h2 := hb FileType.document
  have h3 := hb FileType.video
  have h4 := hb FileType.audio
  have h5 := hb FileType.other
  simp only [TotalSpace.bucket] at h1 h2 h3 h4 h5
  rw [hu, h1, h2, h3, h4, h5, sumSizes_filter_partition]

/-- C3: if the user's file query returns exactly three documents of sizes
10, 20 and 30 bytes, all of type `document`, then `getTotalSpaceUsed`
succeeds and returns a `totalSpace` whose `document` bucket has size 60 and
whose `document.latestDate` is the update timestamp of the most recently
updated of the three files. -/
theorem getTotalSpaceUsed_three_documents (u : UserDoc) (u1 u2 u3 : Nat) :
    ∃ ts, getTotalSpaceUsed (.ok ()) (some u)
        (.ok [⟨10, .document, u1⟩, ⟨20, .document, u2⟩, ⟨30, .document, u3⟩]) = .ok ts
      ∧ ts.document.size = 60
      ∧ ts.document.latestDate = some (max u1 (max u2 u3)) := by
  have hchain :
      (totalSpaceOf [⟨10, .document, u1⟩, ⟨20, .document, u2⟩, ⟨30, .document, u3⟩]).bucket
          FileType.document
        = bumpBucket (bumpBucket (bumpBucket (initialTotalSpace.bucket FileType.document)
            ⟨10, .document, u1⟩) ⟨20, .document, u2⟩) ⟨30, .document, u3⟩ := by
    simp only [totalSpaceOf, List.foldl_cons, List.foldl_nil]
    rw [addFileToSpace_bucket_eq _ _ _ rfl, addFileToSpace_bucket_eq _ _ _ rfl,
      addFileToSpace_bucket_eq _ _ _ rfl]
  refine ⟨_, rfl, ?_, ?_⟩
  · show ((totalSpaceOf _).bucket FileType.document).size = 60
    rw [hchain, bumpBucket_size, bumpBucket_size, bumpBucket_size]
    rfl
  · show ((totalSpaceOf _).bucket FileType.document).latestDate
      = some (max u1 (max u2 u3))
    rw [hchain, bumpBucket_latestDate, bumpBucket_latestDate, bumpBucket_latestDate]
    show some (max (max u1 u2) u3) = some (max u1 (max u2 u3))
    rw [Nat.max_assoc]


/-- C2 counterexample: when `createSessionClient` succeeds but the remote
`deleteSession` call fails (the session was already invalid), the
`appwrite-session` cookie is NOT deleted — the cookie-deletion line sits
after `deleteSession` inside the same `try`, so the thrown error skips it. -/
theorem signOutUser_keeps_cookie_on_failure :
    "appwrite-session" ∈
      (signOutUser (.ok ()) (.error "session already invalid")
        ["appwrite-session"]).2 := by
  decide

/-- C2 amended: the `appwrite-session` cookie is deleted exactly when both
session-client creation and the remote session deletion succeed; when the
remote deletion fails the cookie jar is left unchanged and the user is
still redirected to `/sign-in`; when session-client creation fails the
error propagates with the jar unchanged. -/
theorem signOutUser_cookie_characterization (scr dsr : Except Err Unit)
    (jar : CookieJar) :
    (scr = .ok () → dsr = .ok () →
        (signOutUser scr dsr jar).1 = .ok (.redirectTo "/sign-in")
        ∧ "appwrite-session" ∉ (signOutUser scr dsr jar).2
        ∧ ∀ c ∈ jar, c ≠ "appwrite-session" → c ∈ (signOutUser scr dsr jar).2)
    ∧ (∀ e, scr = .ok () → dsr = .error e →
        (signOutUser scr dsr jar).1 = .ok (.redirectTo "/sign-in")
        ∧ (signOutUser scr dsr jar).2 = jar)
    ∧ (∀ e, scr = .error e → signOutUser scr dsr jar = (.error e, jar)) := by
  refine ⟨?_, ?_, ?_⟩
  · rintro rfl rfl
    refine ⟨rfl, ?_, ?_⟩
    · simp [signOutUser]
    · intro c hc hne
      simp [signOutUser, List.mem_filter, hc, hne]
  · rintro e rfl rfl
    exact ⟨rfl, rfl⟩
  · rintro e rfl
    rfl

/-- C2 witness: concrete run of the amended characterization, on a jar
holding the session cookie and one unrelated cookie. -/
theorem signOutUser_cookie_characterization_witness :
    ((signOutUser (.ok ()) (.ok ()) ["appwrite-session", "theme"]).1
        = .ok (.redirectTo "/sign-in")
      ∧ "appwrite-session" ∉ (signOutUser (.ok ()) (.ok ())
          ["appwrite-session", "theme"]).2
      ∧ ∀ c ∈ ["appwrite-session", "theme"], c ≠ "appwrite-session" →
          c ∈ (signOutUser (.ok ()) (.ok ()) ["appwrite-session", "theme"]).2)
    ∧ (signOutUser (.ok ()) (.error "gone") ["appwrite-session", "theme"]).2
        = ["appwrite-session", "theme"] :=
  ⟨(signOutUser_cookie_characterization (.ok ()) (.ok ())
      ["appwrite-session", "theme"]).1 rfl rfl,
   ((signOutUser_cookie_characterization (.ok ()) (.error "gone")
      ["appwrite-session", "theme"]).2.1 "gone" rfl rfl).2⟩

/-- C7: `getCurrentUser` never throws — its whole body is guarded by a
`catch` that only logs.  For every outcome of the session lookup, the
account fetch and the user-document query it produces one of exactly three
results: the matching user document (`user.documents[0]` of the query by
account id), `null` when no document matches (`total <= 0`), and an
absence value (`undefined`) when any underlying call fails. -/
theorem getCurrentUser_never_throws (env : CurrentUserEnv) :
    ((∃ u, getCurrentUser env = .found u)
      ∨ getCurrentUser env = .nullResult
      ∨ getCurrentUser env = .absent)
    ∧ (∀ e, env.sessionClientRes = .error e → getCurrentUser env = .absent)
    ∧ (∀ e, env.accountGetRes = .error e → getCurrentUser env = .absent)
    ∧ (∀ aid e, env.accountGetRes = .ok aid →
        env.listByAccountId aid = .error e → getCurrentUser env = .absent)
    ∧ (∀ aid resp, env.sessionClientRes = .ok () → env.accountGetRes = .ok aid →
        env.listByAccountId aid = .ok resp → resp.total = 0 →
        getCurrentUser env = .nullResult)
    ∧ (∀ aid resp d, env.sessionClientRes = .ok () → env.accountGetRes = .ok aid →
        env.listByAccountId aid = .ok resp → 0 < resp.total →
        resp.documents.head? = some d → getCurrentUser env = .found d) := by
  obtain ⟨scr, agr, lba⟩ := env
  refine ⟨?_, ?_, ?_, ?_, ?_, ?_⟩
  · unfold getCurrentUser
    cases scr with
    | error e => simp
    | ok _ =>
      cases agr with
      | error e => simp
      | ok aid =>
        cases hl : lba aid with
        | error e => simp [hl]
        | ok resp =>
          by_cases ht : resp.total = 0
          · simp [hl, ht]
          · cases hh : resp.documents.head? with
            | none => simp [hl, ht, hh]
            | some d => exact Or.inl ⟨d, by simp [hl, ht, hh]⟩
  · rintro e rfl; rfl
  · rintro e h
    cases scr with
    | error e2 => rfl
    | ok _ => simp only at h; rw [h]; rfl
  · rintro aid e hok hl
    cases scr with
    | error e2 => rfl
    | ok _ =>
      simp only at hok hl
      rw [getCurrentUser]; simp only [hok, hl]
  · rintro aid resp rfl hok hl ht
    simp only at hok hl
    rw [getCurrentUser]; simp only [hok, hl]
    simp [ht]
  · rintro aid resp d rfl hok hl ht hh
    simp only at hok hl
    rw [getCurrentUser]; simp only [hok, hl]
    have ht2 : ¬ resp.total = 0 := by omega
    simp [ht2, hh]

/-- C7 witness: a fully successful environment yields the matching user
document, and an environment whose account fetch fails yields the absence
value. -/
theorem getCurrentUser_never_throws_witness :
    getCurrentUser sampleCurrentUserEnv = .found sampleUser
    ∧ getCurrentUser { sampleCurrentUserEnv with accountGetRes := .error "no session" }
        = .absent :=
  ⟨(getCurrentUser_never_throws sampleCurrentUserEnv).2.2.2.2.2 "acc1"
      { total := 1, documents := [sampleUser] } sampleUser rfl rfl rfl (by decide) rfl,
   (getCurrentUser_never_throws _).2.2.1 "no session" rfl⟩

/-- C5: each distinct owner reference in the listed files is resolved by
first attempting `getDocument` by id; on failure, by a query on
`accountId`; if that returns no documents, by a query on `email`; every
failure in the chain is swallowed, so resolution always yields a plain
optional value (never an exception), and the `ownerMap` entry of an owner
depends only on that owner's own lookups, so one owner's failure cannot
affect another owner's resolution or make `getFiles` fail. -/
theorem getFiles_owner_resolution (lookups : String → OwnerLookup)
    (ownerIds : List String) (o : String) :
    (∀ d, (lookups o).getDoc = .ok d → resolveOwner (lookups o) = some d)
    ∧ (∀ e resp, (lookups o).getDoc = .error e →
        (lookups o).byAccount = .ok resp → 0 < resp.total →
        resolveOwner (lookups o) = resp.documents.head?)
    ∧ (∀ e resp resp2, (lookups o).getDoc = .error e →
        (lookups o).byAccount = .ok resp → resp.total = 0 →
        (lookups o).byEmail = .ok resp2 → 0 < resp2.total →
        resolveOwner (lookups o) = resp2.documents.head?)
    ∧ (∀ e resp resp2, (lookups o).getDoc = .error e →
        (lookups o).byAccount = .ok resp → resp.total = 0 →
        (lookups o).byEmail = .ok resp2 → resp2.total = 0 →
        resolveOwner (lookups o) = none)
    ∧ (∀ e e2, (lookups o).getDoc = .error e →
        (lookups o).byAccount = .error e2 → resolveOwner (lookups o) = none)
    ∧ (∀ e resp e2, (lookups o).getDoc = .error e →
        (lookups o).byAccount = .ok resp → resp.total = 0 →
        (lookups o).byEmail = .error e2 → resolveOwner (lookups o) = none)
    ∧ (o ∈ ownerIds →
        assocFind (buildOwnerMap lookups ownerIds) o
          = some (resolveOwner (lookups o))) := by
  refine ⟨?_, ?_, ?_, ?_, ?_, ?_, ?_⟩
  · intro d h
    rw [resolveOwner, h]
  · intro e resp h1 h2 h3
    rw [resolveOwner, h1, h2]
    simp [h3]
  · intro e resp resp2 h1 h2 h3 h4 h5
    rw [resolveOwner, h1, h2]
    simp [h3, h4, h5]
  · intro e resp resp2 h1 h2 h3 h4 h5
    rw [resolveOwner, h1, h2]
    simp [h3, h4, h5]
  · intro e e2 h1 h2
    rw [resolveOwner, h1, h2]
  · intro e resp e2 h1 h2 h3 h4
    rw [resolveOwner, h1, h2]
    simp [h3, h4]
  · intro ho
    induction ownerIds with
    | nil => cases ho
    | cons a rest ih =>
        by_cases h : a = o
        · subst h
          simp [buildOwnerMap, assocFind]
        · rcases List.mem_cons.mp ho with h2 | h2
          · exact absurd h2.symm h
          · simpa [buildOwnerMap, assocFind, h] using ih h2

/-- C5 witness: the direct lookup resolves owner "u1" to `sampleUser`, the
accountId fallback resolves owner "acc2" to `sampleUser2`, a totally
failing owner resolves to `none`, and the owner-map entry of "acc2" in a
map built for both owners is its own resolution. -/
theorem getFiles_owner_resolution_witness :
    resolveOwner (sampleLookups "u1") = some sampleUser
    ∧ resolveOwner (sampleLookups "acc2")
        = ({ total := 1, documents := [sampleUser2] } : ListResp).documents.head?
    ∧ resolveOwner (sampleLookups "nobody") = none
    ∧ assocFind (buildOwnerMap sampleLookups ["u1", "acc2"]) "acc2"
        = some (resolveOwner (sampleLookups "acc2")) :=
  ⟨(getFiles_owner_resolution sampleLookups [] "u1").1 sampleUser rfl,
   (getFiles_owner_resolution sampleLookups [] "acc2").2.1
      "no document with id acc2" { total := 1, documents := [sampleUser2] }
      rfl rfl (by decide),
   (getFiles_owner_resolution sampleLookups [] "nobody").2.2.2.2.1
      "no document" "query failed" rfl rfl,
   (getFiles_owner_resolution sampleLookups ["u1", "acc2"] "acc2").2.2.2.2.2.2
      (by decide)⟩

/-- C9: the final mapping step of `getFiles` preserves the number and order
of the listed documents and every field except `owner`; the `owner` field
becomes the resolved user document exactly when the owner-map lookup of the
file's owner id succeeded, and is otherwise left exactly as the backend
returned it (string id, object, or null). -/
theorem getFiles_preserves_documents (ownerMap : String → Option UserDoc)
    (files : List FileDoc) :
    (attachOwners ownerMap files).length = files.length
    ∧ List.Forall₂ (fun g f =>
        g.name = f.name ∧ g.url = f.url ∧ g.ftype = f.ftype
        ∧ g.extension = f.extension ∧ g.size = f.size
        ∧ g.updatedAt = f.updatedAt ∧ g.users = f.users
        ∧ ((∃ oid u, ownerIdValue f.owner = some oid ∧ ownerMap oid = some u
              ∧ g.owner = .userDoc u)
           ∨ ((ownerIdValue f.owner).bind ownerMap = none ∧ g.owner = f.owner)))
      (attachOwners ownerMap files) files := by
  constructor
  · simp [attachOwners]
  · induction files with
    | nil => exact List.Forall₂.nil
    | cons f fs ih =>
        simp only [attachOwners, List.map_cons]
        refine List.Forall₂.cons ?_ ?_
        · refine ⟨rfl, rfl, rfl, rfl, rfl, rfl, rfl, ?_⟩
          cases ho : ownerIdValue f.owner with
          | none => exact Or.inr ⟨by simp, by simp⟩
          | some oid =>
              cases hm : ownerMap oid with
              | none => exact Or.inr ⟨by simp [hm], by simp [hm]⟩
              | some u => exact Or.inl ⟨oid, u, rfl, hm, by simp [hm]⟩
        · simpa [attachOwners] using ih

theorem isOrderQ_sortClause (s : String) : isOrderQ (sortClause s) = true := by
  simp only [sortClause]
  split <;> rfl

theorem isTypeFilter_sortClause (s : String) : isTypeFilter (sortClause s) = false := by
  simp only [sortClause]
  split <;> rfl

theorem isNameSearch_sortClause (s : String) : isNameSearch (sortClause s) = false := by
  simp only [sortClause]
  split <;> rfl

theorem isLimitQ_sortClause (s : String) : isLimitQ (sortClause s) = false := by
  simp only [sortClause]
  split <;> rfl

/-- C6 counterexample: at types `[]`, search text `""`, sort `""` and
limit `some 0`, the built query list is just the OR clause — JS truthiness
(`if (limit)`, `if (sort)`) drops the limit clause for the given limit `0`
and produces no ordering clause for the empty sort string, contradicting
"a limit clause iff a limit is given" and "exactly one ordering clause". -/
theorem createQueries_claim_counterexample :
    ¬ claimedQueryShape sampleUser [] "" "" (some 0) := by
  intro h
  unfold claimedQueryShape at h
  have hlim := h.2.2.2.1
  have hzero : (createQueries sampleUser [] "" "" (some 0)).countP isLimitQ = 0 := by
    simp [createQueries, sampleUser, isLimitQ]
  rw [hzero] at hlim
  simp at hlim

/-- C6 amended: the query list starts with the OR clause of owner-equality
together with users-containment (present iff the email is non-empty), and
contains a type filter iff the type list is non-empty, a name filter iff
the search text is non-empty, a limit clause iff a nonzero limit is given,
and exactly one ordering clause — placed last and derived from the sort
string — iff the sort string is non-empty. -/
theorem createQueries_characterization (currentUser : UserDoc)
    (types : List String) (searchText : String) (sort : String)
    (limit : Option Nat) :
    (createQueries currentUser types searchText sort limit).head?
        = some (DBQuery.orQ ([DBQuery.equalQ "owner" [currentUser.id]]
            ++ (if currentUser.email ≠ ""
                then [DBQuery.containsArr "users" [currentUser.email]] else [])))
    ∧ (createQueries currentUser types searchText sort limit).countP isTypeFilter
        = (if types ≠ [] then 1 else 0)
    ∧ (createQueries currentUser types searchText sort limit).countP isNameSearch
        = (if searchText ≠ "" then 1 else 0)
    ∧ (createQueries currentUser types searchText sort limit).countP isLimitQ
        = (match limit with | some n => if n ≠ 0 then 1 else 0 | none => 0)
    ∧ (createQueries currentUser types searchText sort limit).countP isOrderQ
        = (if sort ≠ "" then 1 else 0)
    ∧ (sort ≠ "" →
        (createQueries currentUser types searchText sort limit).getLast?
          = some (sortClause sort)) := by
  refine ⟨?_, ?_, ?_, ?_, ?_, ?_⟩
  · simp [createQueries]
  · cases limit <;> simp only [createQueries] <;> split_ifs <;>
      simp only [List.countP_append, List.countP_cons, List.countP_nil,
        isTypeFilter_sortClause] <;>
      simp [isTypeFilter]
  · cases limit <;> simp only [createQueries] <;> split_ifs <;>
      simp only [List.countP_append, List.countP_cons, List.countP_nil,
        isNameSearch_sortClause] <;>
      simp [isNameSearch]
  · cases limit <;> simp only [createQueries] <;> split_ifs <;>
      simp only [List.countP_append, List.countP_cons, List.countP_nil,
        isLimitQ_sortClause] <;>
      simp [isLimitQ]
  · cases limit <;> simp only [createQueries] <;> split_ifs <;>
      simp only [List.countP_append, List.countP_cons, List.countP_nil,
        isOrderQ_sortClause] <;>
      simp [isOrderQ]
  · intro hs
    simp only [createQueries]
    rw [if_pos hs, List.getLast?_append_of_ne_nil _ (by simp)]
    rfl

/-- C6 witness: concrete run of the amended characterization with one type
filter, a search term, a nonzero limit and an ascending sort: the ordering
clause derived from "name-asc" comes last. -/
theorem createQueries_characterization_witness :
    (createQueries sampleUser ["image"] "report" "name-asc" (some 5)).getLast?
        = some (sortClause "name-asc") :=
  (createQueries_characterization sampleUser ["image"] "report" "name-asc"
      (some 5)).2.2.2.2.2 (by simp)

/-- C1: when storing the bytes succeeds (and the attribute listing too) but
creating the metadata document fails, `uploadFile` deletes the just-created
bucket object (the rollback delete succeeding) and rethrows the original
document-creation error, so the new object is gone from the bucket while
every other object is untouched. -/
theorem uploadFile_rolls_back (env : UploadEnv) (bucket : List String)
    (url ftype extension ownerId accountId : String)
    (bucketFile : BucketFile) (attrsArray : List Attr) (e : Err)
    (hcf : env.createFileRes = .ok bucketFile)
    (hla : env.listAttributesRes = .ok attrsArray)
    (hcd : env.createDocumentRes = .error e)
    (hdel : env.deleteFileRes = .ok ()) :
    (uploadFile env bucket url ftype extension ownerId accountId).1 = .error e
    ∧ bucketFile.id ∉ (uploadFile env bucket url ftype extension ownerId accountId).2
    ∧ ∀ x ∈ bucket, x ≠ bucketFile.id →
        x ∈ (uploadFile env bucket url ftype extension ownerId accountId).2 := by
  unfold uploadFile
  rw [hcf, hla, hcd, hdel]
  refine ⟨rfl, ?_, ?_⟩
  · simp [List.mem_filter]
  · intro x hx hne
    simp [List.mem_filter, hx, hne]

/-- C1 witness: concrete failed upload in which the rollback removes the
new object "bf1" and the caller sees the document-creation error. -/
theorem uploadFile_rolls_back_witness :
    (uploadFile sampleUploadEnv ["old1"] "https://cloud.example/bf1" "document"
        "pdf" "u1" "acc1").1 = .error "Failed to create file document"
    ∧ sampleBucketFile.id ∉
        (uploadFile sampleUploadEnv ["old1"] "https://cloud.example/bf1" "document"
          "pdf" "u1" "acc1").2 :=
  ⟨(uploadFile_rolls_back sampleUploadEnv ["old1"] "https://cloud.example/bf1"
      "document" "pdf" "u1" "acc1" sampleBucketFile sampleAttrs
      "Failed to create file document" rfl rfl rfl rfl).1,
   (uploadFile_rolls_back sampleUploadEnv ["old1"] "https://cloud.example/bf1"
      "document" "pdf" "u1" "acc1" sampleBucketFile sampleAttrs
      "Failed to create file document" rfl rfl rfl rfl).2.1⟩

theorem find?_eq_some_split {α : Type} (p : α → Bool) :
    ∀ (l : List α) (k : α), l.find? p = some k →
      ∃ l1 l2, l = l1 ++ k :: l2 ∧ p k = true ∧ ∀ c ∈ l1, p c = false := by
  intro l
  induction l with
  | nil => intro k h; simp [List.find?] at h
  | cons a rest ih =>
      intro k h
      by_cases hpa : p a = true
      · rw [List.find?_cons_of_pos _ hpa] at h
        obtain rfl : a = k := by injection h
        exact ⟨[], rest, rfl, hpa, by intro c hc; cases hc⟩
      · rw [List.find?_cons_of_neg _ (by simpa using hpa)] at h
        obtain ⟨l1, l2, heq, hk, hprev⟩ := ih k h
        refine ⟨a :: l1, l2, by rw [heq]; rfl, hk, ?_⟩
        intro c hc
        rcases List.mem_cons.mp hc with rfl | hc2
        · simpa using hpa
        · exact hprev c hc2

theorem mem_existingKeys_attr (attrsArray : List Attr) (k : String)
    (hk : k ∈ existingKeys attrsArray) :
    ∃ a ∈ attrsArray, a.key = some k ∨ a.id = some k := by
  unfold existingKeys at hk
  have hk1 : k ∈ attrsArray.filterMap attrKeyOf := (List.mem_filter.mp hk).1
  obtain ⟨a, ha, hka⟩ := List.mem_filterMap.mp hk1
  refine ⟨a, ha, ?_⟩
  revert hka
  unfold attrKeyOf
  cases hkey : a.key with
  | some k2 =>
      intro hka
      left
      exact hka
  | none =>
      intro hka
      right
      exact hka

theorem pickKey_mem_existing (attrsArray : List Attr) (cands : List String)
    (k : String) (h : pickKey attrsArray cands = some k) :
    k ∈ existingKeys attrsArray := by
  have := List.find?_some h
  simpa using this

theorem entryIf_keys_sub (attrsArray : List Attr) (k0 : String) (v : FieldValue)
    (k : String) (hk : k ∈ (entryIf attrsArray k0 v).map Prod.fst) :
    k ∈ existingKeys attrsArray := by
  unfold entryIf at hk
  cases hpk : pickKey attrsArray [k0] with
  | none => rw [hpk] at hk; simp at hk
  | some k1 =>
      rw [hpk] at hk
      have hkk : k = k0 := by simpa using hk
      have h1 : k1 = k0 := by simpa using List.mem_of_find?_eq_some hpk
      rw [hkk, ← h1]
      exact pickKey_mem_existing attrsArray [k0] k1 hpk

theorem filter_entryIf (attrsArray : List Attr) (k0 : String) (v : FieldValue)
    (cands : List String) (h : cands.contains k0 = false) :
    ((entryIf attrsArray k0 v).map Prod.fst).filter (fun k => cands.contains k)
      = [] := by
  have h2 : k0 ∉ cands := by simpa using h
  unfold entryIf
  split <;> simp [h2]

theorem account_bucket_disjoint :
    ∀ k ∈ bucketFileKeyCandidates, accountKeyCandidates.contains k = false := by
  decide

theorem bucket_account_disjoint :
    ∀ k ∈ accountKeyCandidates, bucketFileKeyCandidates.contains k = false := by
  decide

/-- C10: the document payload built by `uploadFile` contains only keys that
occur in the introspected attribute list (matched by `key` or `$id`); the
account-id field is written under at most one spelling — exactly the first
existing candidate of `["accountID", "accountId", "account_id"]` — and the
bucket-file reference likewise under at most the first existing candidate
of its five spellings. -/
theorem uploadFile_payload_schema (attrsArray : List Attr)
    (bucketFile : BucketFile) (url ftype extension ownerId accountId : String) :
    (∀ k ∈ (buildFileDocument attrsArray bucketFile url ftype extension ownerId
        accountId).map Prod.fst, ∃ a ∈ attrsArray, a.key = some k ∨ a.id = some k)
    ∧ ((buildFileDocument attrsArray bucketFile url ftype extension ownerId
        accountId).map Prod.fst).filter (fun k => accountKeyCandidates.contains k)
        = (pickKey attrsArray accountKeyCandidates).toList
    ∧ ((buildFileDocument attrsArray bucketFile url ftype extension ownerId
        accountId).map Prod.fst).filter (fun k => bucketFileKeyCandidates.contains k)
        = (pickKey attrsArray bucketFileKeyCandidates).toList
    ∧ (∀ k, pickKey attrsArray accountKeyCandidates = some k →
        ∃ l1 l2, accountKeyCandidates = l1 ++ k :: l2
          ∧ k ∈ existingKeys attrsArray
          ∧ ∀ c ∈ l1, c ∉ existingKeys attrsArray)
    ∧ (∀ k, pickKey attrsArray bucketFileKeyCandidates = some k →
        ∃ l1 l2, bucketFileKeyCandidates = l1 ++ k :: l2
          ∧ k ∈ existingKeys attrsArray
          ∧ ∀ c ∈ l1, c ∉ existingKeys attrsArray) := by
  refine ⟨?_, ?_, ?_, ?_, ?_⟩
  · intro k hk
    simp only [buildFileDocument, List.map_append, List.mem_append] at hk
    rcases hk with ((((((((hk | hk) | hk) | hk) | hk) | hk) | hk) | hk) | hk)
    · exact mem_existingKeys_attr attrsArray k (entryIf_keys_sub _ _ _ _ hk)
    · exact mem_existingKeys_attr attrsArray k (entryIf_keys_sub _ _ _ _ hk)
    · exact mem_existingKeys_attr attrsArray k (entryIf_keys_sub _ _ _ _ hk)
    · exact mem_existingKeys_attr attrsArray k (entryIf_keys_sub _ _ _ _ hk)
    · exact mem_existingKeys_attr attrsArray k (entryIf_keys_sub _ _ _ _ hk)
    · exact mem_existingKeys_attr attrsArray k (entryIf_keys_sub _ _ _ _ hk)
    · cases hacc : pickKey attrsArray accountKeyCandidates with
      | none => rw [hacc] at hk; simp at hk
      | some k2 =>
          rw [hacc] at hk
          have hkk : k = k2 := by simpa using hk
          rw [hkk]
          exact mem_existingKeys_attr attrsArray k2
            (pickKey_mem_existing _ _ _ hacc)
    · cases hbuck : pickKey attrsArray bucketFileKeyCandidates with
      | none => rw [hbuck] at hk; simp at hk
      | some k3 =>
          rw [hbuck] at hk
          have hkk : k = k3 := by simpa using hk
          rw [hkk]
          exact mem_existingKeys_attr attrsArray k3
            (pickKey_mem_existing _ _ _ hbuck)
    · exact mem_existingKeys_attr attrsArray k (entryIf_keys_sub _ _ _ _ hk)
  · simp only [buildFileDocument, List.map_append, List.filter_append]
    rw [filter_entryIf attrsArray "name" (.vStr bucketFile.name)
          accountKeyCandidates (by decide),
        filter_entryIf attrsArray "url" (.vStr url) accountKeyCandidates (by decide),
        filter_entryIf attrsArray "type" (.vStr ftype) accountKeyCandidates (by decide),
        filter_entryIf attrsArray "extension" (.vStr extension)
          accountKeyCandidates (by decide),
        filter_entryIf attrsArray "size" (.vNat bucketFile.sizeOriginal)
          accountKeyCandidates (by decide),
        filter_entryIf attrsArray "owner" (.vStr ownerId)
          accountKeyCandidates (by decide),
        filter_entryIf attrsArray "users" (.vList []) accountKeyCandidates (by decide)]
    cases hacc : pickKey attrsArray accountKeyCandidates with
    | none =>
        cases hbuck : pickKey attrsArray bucketFileKeyCandidates with
        | none => simp
        | some k3 =>
            have hk3 : k3 ∉ accountKeyCandidates := by
              simpa using account_bucket_disjoint k3 (List.mem_of_find?_eq_some hbuck)
            simp [hk3]
    | some k2 =>
        have hc2 : k2 ∈ accountKeyCandidates := List.mem_of_find?_eq_some hacc
        cases hbuck : pickKey attrsArray bucketFileKeyCandidates with
        | none => simp [hc2]
        | some k3 =>
            have hk3 : k3 ∉ accountKeyCandidates := by
              simpa using account_bucket_disjoint k3 (List.mem_of_find?_eq_some hbuck)
            simp [hc2, hk3]
  · simp only [buildFileDocument, List.map_append, List.filter_append]
    rw [filter_entryIf attrsArray "name" (.vStr bucketFile.name)
          bucketFileKeyCandidates (by decide),
        filter_entryIf attrsArray "url" (.vStr url)
          bucketFileKeyCandidates (by decide),
        filter_entryIf attrsArray "type" (.vStr ftype)
          bucketFileKeyCandidates (by decide),
        filter_entryIf attrsArray "extension" (.vStr extension)
          bucketFileKeyCandidates (by decide),
        filter_entryIf attrsArray "size" (.vNat bucketFile.sizeOriginal)
          bucketFileKeyCandidates (by decide),
        filter_entryIf attrsArray "owner" (.vStr ownerId)
          bucketFileKeyCandidates (by decide),
        filter_entryIf attrsArray "users" (.vList [])
          bucketFileKeyCandidates (by decide)]
    cases hbuck : pickKey attrsArray bucketFileKeyCandidates with
    | none =>
        cases hacc : pickKey attrsArray accountKeyCandidates with
        | none => simp
        | some k2 =>
            have hk2 : k2 ∉ bucketFileKeyCandidates := by
              simpa using bucket_account_disjoint k2 (List.mem_of_find?_eq_some hacc)
            simp [hk2]
    | some k3 =>
        have hc3 : k3 ∈ bucketFileKeyCandidates := List.mem_of_find?_eq_some hbuck
        cases hacc : pickKey attrsArray accountKeyCandidates with
        | none => simp [hc3]
        | some k2 =>
            have hk2 : k2 ∉ bucketFileKeyCandidates := by
              simpa using bucket_account_disjoint k2 (List.mem_of_find?_eq_some hacc)
            simp [hc3, hk2]
  · intro k h
    obtain ⟨l1, l2, heq, hpk, hprev⟩ :=
      find?_eq_some_split _ accountKeyCandidates k h
    refine ⟨l1, l2, heq, by simpa using hpk, ?_⟩
    intro c hc
    simpa using hprev c hc
  · intro k h
    obtain ⟨l1, l2, heq, hpk, hprev⟩ :=
      find?_eq_some_split _ bucketFileKeyCandidates k h
    refine ⟨l1, l2, heq, by simpa using hpk, ?_⟩
    intro c hc
    simpa using hprev c hc

/-- C10 witness: on the concrete attribute list, the key "accountId" that
the payload carries indeed occurs in the attribute list, and the payload's
account-id keys are exactly the picked spelling. -/
theorem uploadFile_payload_schema_witness :
    (∃ a ∈ sampleAttrs, a.key = some "accountId" ∨ a.id = some "accountId")
    ∧ ((buildFileDocument sampleAttrs sampleBucketFile "u" "t" "e" "o" "a").map
        Prod.fst).filter (fun k => accountKeyCandidates.contains k)
        = (pickKey sampleAttrs accountKeyCandidates).toList :=
  ⟨(uploadFile_payload_schema sampleAttrs sampleBucketFile "u" "t" "e" "o" "a").1
      "accountId" (by decide),
   (uploadFile_payload_schema sampleAttrs sampleBucketFile "u" "t" "e" "o" "a").2.1⟩

theorem ensureString_mono (schema : List Attr) (key : String) (a : Attr)
    (ha : a ∈ schema) : a ∈ (ensureStringAttribute schema key).2 := by
  unfold ensureStringAttribute
  split <;> simp [ha]

theorem ensureString_covers (schema : List Attr) (key : String) :
    ∃ a ∈ (ensureStringAttribute schema key).2,
      a.key = some key ∨ a.id = some key := by
  unfold ensureStringAttribute
  split
  · next h =>
      obtain ⟨a, ha, hpa⟩ := List.any_eq_true.mp h
      exact ⟨a, ha, by simpa using hpa⟩
  · exact ⟨{ key := some key, id := some key }, by simp, by simp⟩

theorem ensureAttributes_mono (keys : List String) :
    ∀ (schema : List Attr) (a : Attr), a ∈ schema →
      a ∈ (ensureAttributes schema keys).2 := by
  induction keys with
  | nil => intro schema a ha; simpa [ensureAttributes] using ha
  | cons key rest ih =>
      intro schema a ha
      have h1 := ensureString_mono schema key a ha
      have h2 := ih (ensureStringAttribute schema key).2 a h1
      simpa [ensureAttributes] using h2

theorem ensureAttributes_covers (keys : List String) :
    ∀ (schema : List Attr) (k : String), k ∈ keys →
      ∃ a ∈ (ensureAttributes schema keys).2, a.key = some k ∨ a.id = some k := by
  induction keys with
  | nil => intro schema k hk; cases hk
  | cons key rest ih =>
      intro schema k hk
      rcases List.mem_cons.mp hk with rfl | hk2
      · obtain ⟨a, ha, hprop⟩ := ensureString_covers schema k
        refine ⟨a, ?_, hprop⟩
        have h2 := ensureAttributes_mono rest (ensureStringAttribute schema k).2 a ha
        simpa [ensureAttributes] using h2
      · have h2 := ih (ensureStringAttribute schema key).2 k hk2
        simpa [ensureAttributes] using h2

/-- C8: when the email already has a user document, `createAccount` creates
no document and no schema attributes and just returns the pending account
id from the OTP; conversely, whenever a user document is created, the email
had no user document yet, the payload carries the given name, email,
placeholder avatar and the OTP-issued account id, and each of the four
attributes `fullName`, `email`, `avatar`, `accountId` exists in the schema
at creation time. -/
theorem createAccount_first_signup_only (fullName email avatarUrl : String)
    (schema : List Attr) (env : CreateAccountEnv) :
    (∀ u a, env.getUserByEmailRes = .ok (some u) → env.otpRes = .ok a → a ≠ "" →
        (createAccount fullName email avatarUrl schema env).result = .ok a
        ∧ (createAccount fullName email avatarUrl schema env).attrsCreated = []
        ∧ (createAccount fullName email avatarUrl schema env).docCreated = none
        ∧ (createAccount fullName email avatarUrl schema env).schemaAfter = schema)
    ∧ (∀ p, (createAccount fullName email avatarUrl schema env).docCreated = some p →
        env.getUserByEmailRes = .ok none
        ∧ (∀ k ∈ ["fullName", "email", "avatar", "accountId"],
            ∃ a ∈ (createAccount fullName email avatarUrl schema env).schemaAfter,
              a.key = some k ∨ a.id = some k)
        ∧ p.fullName = fullName ∧ p.email = email ∧ p.avatar = avatarUrl
        ∧ env.otpRes = .ok p.accountId) := by
  constructor
  · rintro u a hge hotp hne
    unfold createAccount
    rw [hge, hotp]
    simp [hne]
  · intro p hp
    obtain ⟨ge, otp, cd⟩ := env
    cases ge with
    | error e => simp [createAccount] at hp
    | ok existingUser =>
      cases otp with
      | error e => simp [createAccount] at hp
      | ok accountId =>
        by_cases hne : accountId = ""
        · simp [createAccount, hne] at hp
        · cases existingUser with
          | some u => simp [createAccount, hne] at hp
          | none =>
            cases cd with
            | error e => simp [createAccount, hne] at hp
            | ok _ =>
                have hp2 : { fullName := fullName, email := email
                             avatar := avatarUrl
                             accountId := accountId : UserDocPayload } = p := by
                  simpa [createAccount, hne] using hp
                refine ⟨rfl, ?_, ?_⟩
                · intro k hk
                  have hcov := ensureAttributes_covers
                    ["fullName", "email", "avatar", "accountId"] schema k hk
                  simpa [createAccount, hne] using hcov
                · rw [← hp2]
                  exact ⟨rfl, rfl, rfl, rfl⟩

/-- C8 witness: with an existing user the account id is returned and
nothing is created; on a first sign-up a document is created, and the
theorem recovers that the email lookup had found nothing. -/
theorem createAccount_first_signup_only_witness :
    ((createAccount "Ann" "ann@example.com" "av" [] sampleCreateAccountEnvExisting).result
        = .ok "acc9"
      ∧ (createAccount "Ann" "ann@example.com" "av" []
          sampleCreateAccountEnvExisting).docCreated = none)
    ∧ sampleCreateAccountEnvNew.getUserByEmailRes = .ok none :=
  ⟨⟨((createAccount_first_signup_only "Ann" "ann@example.com" "av" []
        sampleCreateAccountEnvExisting).1 sampleUser "acc9" rfl rfl (by decide)).1,
    ((createAccount_first_signup_only "Ann" "ann@example.com" "av" []
        sampleCreateAccountEnvExisting).1 sampleUser "acc9" rfl rfl (by decide)).2.2.1⟩,
   ((createAccount_first_signup_only "Ann" "ann@example.com" "av" []
        sampleCreateAccountEnvNew).2
      { fullName := "Ann", email := "ann@example.com", avatar := "av"
        accountId := "acc9" } rfl).1⟩
